import Mathlib

/-!
Verification development for the v2t-ai voice-to-text pipeline.

The Go sources under src/ are shallowly embedded below:
bytes are `Nat` values (with explicit `% 2^32` / `% 2^16` where Go converts
to fixed-width integers), byte buffers are `List Nat`, fallible calls return
a `String × Option String` pair mirroring Go's `(string, error)` results,
and the external transcription service is a call oracle parameter.
-/

namespace VoiceAI

/-- Embedding of `writeUint32LE` (src/voiceai-go/main.go): writes the four
little-endian bytes of a 32-bit value (`byte(v)`, `byte(v>>8)`, `byte(v>>16)`,
`byte(v>>24)`). -/
def writeUint32LE (v : Nat) : List Nat :=
  [v % 256, v / 2 ^ 8 % 256, v / 2 ^ 16 % 256, v / 2 ^ 24 % 256]

/-- Embedding of `writeUint16LE` (src/voiceai-go/main.go). -/
def writeUint16LE (v : Nat) : List Nat :=
  [v % 256, v / 2 ^ 8 % 256]

/-- Embedding of `createWAVData` (src/voiceai-go/main.go, lines 328..362;
identical in part_000 and main-rest.go): a 44-byte canonical WAV header
followed by the raw payload.  Go's `uint32(36+dataSize)` and
`uint32(dataSize)` conversions truncate, hence the explicit `% 2 ^ 32`.
The fixed format constants are sampleRate = 16000, channels = 1,
bitsPerSample = 16, exactly as in the source. -/
def createWAVData (rawData : List Nat) : List Nat :=
  let sampleRate := 16000
  let channels := 1
  let bitsPerSample := 16
  let dataSize := rawData.length
  [82, 73, 70, 70]
    ++ writeUint32LE ((36 + dataSize) % 2 ^ 32)
    ++ [87, 65, 86, 69]
    ++ [102, 109, 116, 32]
    ++ writeUint32LE 16
    ++ writeUint16LE 1
    ++ writeUint16LE (channels % 2 ^ 16)
    ++ writeUint32LE (sampleRate % 2 ^ 32)
    ++ writeUint32LE (sampleRate * channels * bitsPerSample / 8 % 2 ^ 32)
    ++ writeUint16LE (channels * bitsPerSample / 8 % 2 ^ 16)
    ++ writeUint16LE (bitsPerSample % 2 ^ 16)
    ++ [100, 97, 116, 97]
    ++ writeUint32LE (dataSize % 2 ^ 32)
    ++ rawData

/-- Little-endian decoder for a 32-bit field at byte offset `off`. -/
def readUint32LE (b : List Nat) (off : Nat) : Nat :=
  match b.drop off with
  | b0 :: b1 :: b2 :: b3 :: _ => b0 + 2 ^ 8 * b1 + 2 ^ 16 * b2 + 2 ^ 24 * b3
  | _ => 0

/-- Little-endian decoder for a 16-bit field at byte offset `off`. -/
def readUint16LE (b : List Nat) (off : Nat) : Nat :=
  match b.drop off with
  | b0 :: b1 :: _ => b0 + 2 ^ 8 * b1
  | _ => 0

theorem createWAVData_chunkSize (raw : List Nat) :
    readUint32LE (createWAVData raw) 4 = (36 + raw.length) % 2 ^ 32 := by
  have h : readUint32LE (createWAVData raw) 4 =
      (36 + raw.length) % 2 ^ 32 % 256
        + 2 ^ 8 * ((36 + raw.length) % 2 ^ 32 / 2 ^ 8 % 256)
        + 2 ^ 16 * ((36 + raw.length) % 2 ^ 32 / 2 ^ 16 % 256)
        + 2 ^ 24 * ((36 + raw.length) % 2 ^ 32 / 2 ^ 24 % 256) := rfl
  rw [h]
  omega

theorem createWAVData_dataSize (raw : List Nat) :
    readUint32LE (createWAVData raw) 40 = raw.length % 2 ^ 32 := by
  have h : readUint32LE (createWAVData raw) 40 =
      raw.length % 2 ^ 32 % 256
        + 2 ^ 8 * (raw.length % 2 ^ 32 / 2 ^ 8 % 256)
        + 2 ^ 16 * (raw.length % 2 ^ 32 / 2 ^ 16 % 256)
        + 2 ^ 24 * (raw.length % 2 ^ 32 / 2 ^ 24 % 256) := rfl
  rw [h]
  omega

theorem createWAVData_length (raw : List Nat) :
    (createWAVData raw).length = 44 + raw.length := by
  simp [createWAVData, writeUint32LE, writeUint16LE]
  omega

theorem createWAVData_payload (raw : List Nat) :
    (createWAVData raw).drop 44 = raw := rfl

/-- C9: the WAV framer stores ChunkSize and Subchunk2Size as 32-bit values:
the header fields are `(36 + D) % 2 ^ 32` and `D % 2 ^ 32`, so they decode
exactly to `36 + D` and `D` precisely when `D ≤ 2 ^ 32 - 37`, and wrap for
larger payloads. -/
theorem wav_header_mod32 (raw : List Nat) :
    readUint32LE (createWAVData raw) 4 = (36 + raw.length) % 2 ^ 32 ∧
    readUint32LE (createWAVData raw) 40 = raw.length % 2 ^ 32 ∧
    ((readUint32LE (createWAVData raw) 4 = 36 + raw.length ∧
        readUint32LE (createWAVData raw) 40 = raw.length) ↔
      raw.length ≤ 2 ^ 32 - 37) := by
  rw [createWAVData_chunkSize, createWAVData_dataSize]
  refine ⟨rfl, rfl, ?_⟩
  constructor
  · intro h
    omega
  · intro h
    omega

/-- C3 counterexample: for a payload of length `2 ^ 32` the ChunkSize field
does not decode to `36 + D`: Go's `uint32(36+dataSize)` conversion wraps,
storing `36` instead of `36 + 2 ^ 32`. -/
theorem wav_chunkSize_wraps :
    readUint32LE (createWAVData (List.replicate (2 ^ 32) 0)) 4 ≠
      36 + (List.replicate (2 ^ 32) (0 : Nat)).length := by
  rw [createWAVData_chunkSize, List.length_replicate]
  norm_num

set_option maxHeartbeats 2000000 in
/-- C3 (amended): for every raw PCM payload whose length D is at most
`2 ^ 32 - 37`, the WAV framer returns exactly 44 header bytes followed by the
unmodified payload, with bytes 0..4 = "RIFF", bytes 4..8 decoding (u32 LE) to
`36 + D`, bytes 8..12 = "WAVE", Subchunk1Size = 16, AudioFormat = 1,
NumChannels = 1, SampleRate = 16000,
ByteRate = SampleRate * NumChannels * BitsPerSample / 8,
BlockAlign = NumChannels * BitsPerSample / 8, BitsPerSample = 16, and
bytes 40..44 decoding (u32 LE) to `D`.  (The two length fields are stored
mod `2 ^ 32`, so the bound on D is required; see `wav_chunkSize_wraps`.) -/
theorem createWAVData_spec (raw : List Nat) (hD : raw.length ≤ 2 ^ 32 - 37) :
    (createWAVData raw).length = 44 + raw.length ∧
    (createWAVData raw).take 4 = [82, 73, 70, 70] ∧
    readUint32LE (createWAVData raw) 4 = 36 + raw.length ∧
    ((createWAVData raw).drop 8).take 4 = [87, 65, 86, 69] ∧
    readUint32LE (createWAVData raw) 16 = 16 ∧
    readUint16LE (createWAVData raw) 20 = 1 ∧
    readUint16LE (createWAVData raw) 22 = 1 ∧
    readUint32LE (createWAVData raw) 24 = 16000 ∧
    readUint32LE (createWAVData raw) 28 = 16000 * 1 * 16 / 8 ∧
    readUint16LE (createWAVData raw) 32 = 1 * 16 / 8 ∧
    readUint16LE (createWAVData raw) 34 = 16 ∧
    readUint32LE (createWAVData raw) 40 = raw.length ∧
    (createWAVData raw).drop 44 = raw := by
  refine ⟨createWAVData_length raw, rfl, ?_, rfl, rfl, rfl, rfl, rfl, ?_, ?_, rfl, ?_, rfl⟩
  · rw [createWAVData_chunkSize]
    omega
  · have h28 : readUint32LE (createWAVData raw) 28 = 32000 := rfl
    rw [h28]
  · have h32 : readUint16LE (createWAVData raw) 32 = 2 := rfl
    rw [h32]
  · rw [createWAVData_dataSize]
    omega

/-- Witness for `createWAVData_spec` at the concrete payload `[7, 8, 9]`. -/
theorem createWAVData_spec_witness :
    ([7, 8, 9] : List Nat).length ≤ 2 ^ 32 - 37 ∧
      readUint32LE (createWAVData [7, 8, 9]) 4 = 36 + ([7, 8, 9] : List Nat).length ∧
      readUint32LE (createWAVData [7, 8, 9]) 40 = ([7, 8, 9] : List Nat).length :=
  ⟨by decide, (createWAVData_spec [7, 8, 9] (by decide)).2.2.1,
    (createWAVData_spec [7, 8, 9] (by decide)).2.2.2.2.2.2.2.2.2.2.2.1⟩

/-- JSON `parts[i]` element of a Gemini response (src/voiceai-go/main-rest.go). -/
structure RestPart where
  text : String
deriving DecidableEq

/-- JSON `content` element of a Gemini response candidate. -/
structure RestContent where
  parts : List RestPart
deriving DecidableEq

/-- JSON `candidates[i]` element of a Gemini response. -/
structure RestCandidate where
  content : RestContent
deriving DecidableEq

/-- Parsed JSON body of a Gemini REST response (src/voiceai-go/main-rest.go). -/
structure GeminiResponse where
  candidates : List RestCandidate
deriving DecidableEq

/-- Failure taxonomy of `transcribeWithRest` (src/voiceai-go/main-rest.go). -/
inductive RestError
  | badStatus (code : Nat)
  | parseError
  | emptyResponse
  | unexpectedStructure
deriving DecidableEq

/-- Model of Go's `strings.TrimSpace`: removes leading and trailing
whitespace characters from a string. -/
def trimSpace (s : String) : String :=
  String.mk (((s.data.dropWhile Char.isWhitespace).reverse.dropWhile
    Char.isWhitespace).reverse)

/-- Embedding of the response handling of `transcribeWithRest`
(src/voiceai-go/main-rest.go, lines 547..636): `status` is the HTTP status
code and `body` is the unmarshalled JSON body (`none` when unmarshalling
fails).  Non-200 status is an error; then the first candidate's first
content part's text is taken, an empty text is the "no text found in
response" error, and a successful result is returned through
`strings.TrimSpace`. -/
def transcribeWithRest (status : Nat) (body : Option GeminiResponse) :
    Except RestError String :=
  if status ≠ 200 then .error (.badStatus status)
  else
    match body with
    | none => .error .parseError
    | some resp =>
      match resp.candidates with
      | c :: _ =>
        match c.content.parts with
        | p :: _ =>
          if p.text = "" then .error .emptyResponse else .ok (trimSpace p.text)
        | [] => .error .unexpectedStructure
      | [] => .error .unexpectedStructure

/-- The text field of the first candidate's first content part, when present. -/
def firstPartText (resp : GeminiResponse) : Option String :=
  resp.candidates.head?.bind fun c => c.content.parts.head?.map (·.text)

/-- Per-run configuration fields used by the embedded pipeline logic
(src/voiceai-go/main.go `Config`). -/
structure Config where
  primaryModel : String
  fallbackModel : String
  maxSegmentSizeMB : ℚ
deriving DecidableEq

/-- Embedding of `transcribeAudio` from src/voiceai-go/main.go (lines
197..234), the direct-mode client of that variant: one `GenerateContent`
call on the primary model; on error return `("", err)`, otherwise return the
SDK's response text unchanged (no emptiness check and no trimming).
`call` maps a model id to the `(text, error)` outcome of one client call. -/
def transcribeAudioGenai (cfg : Config) (call : String → String × Option String) :
    List String × String × Option String :=
  let r := call cfg.primaryModel
  match r.2 with
  | some e => ([cfg.primaryModel], ("", some e))
  | none => ([cfg.primaryModel], (r.1, none))

/-- Embedding of `transcribeAudio` from src/voiceai-go/main-rest.go (lines
228..244), the direct-mode client of the REST variant: primary model first,
then the fallback model if the first call errored or returned empty text;
if both fail, `("", all transcription attempts failed)`. -/
def transcribeAudioRest (cfg : Config) (call : String → String × Option String) :
    List String × String × Option String :=
  let r1 := call cfg.primaryModel
  if r1.2 = none ∧ r1.1 ≠ "" then ([cfg.primaryModel], (r1.1, none))
  else
    let r2 := call cfg.fallbackModel
    if r2.2 = none ∧ r2.1 ≠ "" then
      ([cfg.primaryModel, cfg.fallbackModel], (r2.1, none))
    else
      ([cfg.primaryModel, cfg.fallbackModel], ("", some "all transcription attempts failed"))

/-- C7 (amended): for every REST Transcription Client call
(`transcribeWithRest`, used by main-rest.go both for direct mode and for
segments), a successful HTTP status whose response has an empty or absent
text field in the first candidate's first content part never yields a text,
and on success the client returns the response text with leading and
trailing whitespace trimmed.  (The genai-SDK direct client of main.go does
not satisfy this; see `transcribeAudioGenai_no_empty_check`.) -/
theorem transcribeWithRest_empty_and_trim (resp : GeminiResponse) :
    (firstPartText resp = none ∨ firstPartText resp = some "" →
      ∀ s, transcribeWithRest 200 (some resp) ≠ .ok s) ∧
    (∀ s, transcribeWithRest 200 (some resp) = .ok s →
      ∃ t, firstPartText resp = some t ∧ t ≠ "" ∧ s = trimSpace t) := by
  obtain ⟨cands⟩ := resp
  constructor
  · intro h s hok
    cases cands with
    | nil => simp [transcribeWithRest] at hok
    | cons c cs =>
      obtain ⟨⟨parts⟩⟩ := c
      cases parts with
      | nil => simp [transcribeWithRest] at hok
      | cons p ps =>
        simp [firstPartText] at h
        simp [transcribeWithRest, h] at hok
  · intro s hok
    cases cands with
    | nil => simp [transcribeWithRest] at hok
    | cons c cs =>
      obtain ⟨⟨parts⟩⟩ := c
      cases parts with
      | nil => simp [transcribeWithRest] at hok
      | cons p ps =>
        by_cases htext : p.text = ""
        · simp [transcribeWithRest, htext] at hok
        · simp [transcribeWithRest, htext] at hok
          exact ⟨p.text, by simp [firstPartText], htext, hok.symm⟩

/-- Witness for `transcribeWithRest_empty_and_trim`: a 200 response whose
first part text is empty yields no text, and a padded text comes back
trimmed. -/
theorem transcribeWithRest_empty_and_trim_witness :
    transcribeWithRest 200 (some ⟨[⟨⟨[⟨""⟩]⟩⟩]⟩) ≠ .ok "x" :=
  (transcribeWithRest_empty_and_trim ⟨[⟨⟨[⟨""⟩]⟩⟩]⟩).1 (Or.inr rfl) "x"

/-- C7 counterexample: the direct-mode Transcription Client of main.go
(`transcribeAudio`, lines 197..234) passes the SDK response text through
unchanged: a call whose response text is empty yields success with empty
text instead of an error, and a padded text is not trimmed. -/
theorem transcribeAudioGenai_no_empty_check :
    (transcribeAudioGenai ⟨"modelA", "modelB", 2⟩ fun _ => ("", none)).2 = ("", none) ∧
    (transcribeAudioGenai ⟨"modelA", "modelB", 2⟩ fun _ => ("  hi  ", none)).2 =
      ("  hi  ", none) ∧
    trimSpace "  hi  " ≠ "  hi  " := by
  refine ⟨rfl, rfl, by decide⟩

/-- Outcome of one segment worker, as sent on `resultChan`
(src/voiceai-go/main.go `segmentResult`). -/
structure SegmentResult where
  index : Nat
  text : String
  err : Option String
deriving DecidableEq

/-- The model a unit's first attempt uses: even-indexed units start with the
primary model, odd-indexed units with the fallback model. -/
def parityFirst (cfg : Config) (idx : Nat) : String :=
  if idx % 2 = 0 then cfg.primaryModel else cfg.fallbackModel

/-- The other model of the parity pair for a unit. -/
def parityOther (cfg : Config) (idx : Nat) : String :=
  if idx % 2 = 0 then cfg.fallbackModel else cfg.primaryModel

/-- Embedding of one worker body of `transcribeSegmentsParallel`
(src/voiceai-go/main.go, lines 585..623; main-rest.go lines 1200..1250 are
identical): the first attempt's model is chosen by index parity; on an error
or empty text the segment is retried with the fallback model, but only when
the first model was the primary model.  `call a m` is the `(text, error)`
outcome of attempt number `a` against model `m`; the result is the list of
models called, in order, and the `segmentResult` sent on the channel. -/
def transcribeSegmentsParallelUnit (cfg : Config) (idx : Nat)
    (call : Nat → String → String × Option String) :
    List String × SegmentResult :=
  let model := if idx % 2 = 0 then cfg.primaryModel else cfg.fallbackModel
  let r1 := call 0 model
  if r1.2 = none ∧ r1.1 ≠ "" then ([model], ⟨idx, r1.1, r1.2⟩)
  else if model = cfg.primaryModel then
    let r2 := call 1 cfg.fallbackModel
    ([model, cfg.fallbackModel], ⟨idx, r2.1, r2.2⟩)
  else ([model], ⟨idx, r1.1, r1.2⟩)

/-- Embedding of `transcribeSegmentSmart` (src/unnamed/part_000, lines
394..443) restricted to its model-selection and retry logic: with load
balancing, even-indexed segments try the primary model first and the
fallback model second, odd-indexed segments the reverse; without load
balancing the order is primary then fallback.  The second model is tried
exactly when the first attempt errored or returned empty text; if the
second attempt also errors the unit fails with "both models failed". -/
def transcribeSegmentSmart (cfg : Config) (segmentIndex : Nat)
    (useLoadBalancing : Bool) (call : Nat → String → String × Option String) :
    List String × String × Option String :=
  let pair :=
    if useLoadBalancing then
      if segmentIndex % 2 = 0 then (cfg.primaryModel, cfg.fallbackModel)
      else (cfg.fallbackModel, cfg.primaryModel)
    else (cfg.primaryModel, cfg.fallbackModel)
  let r1 := call 0 pair.1
  if r1.2 = none ∧ r1.1 ≠ "" then ([pair.1], (r1.1, none))
  else
    let r2 := call 1 pair.2
    match r2.2 with
    | some e => ([pair.1, pair.2], ("", some ("both models failed: " ++ e)))
    | none => ([pair.1, pair.2], (r2.1, none))

theorem unit_calls_eq (cfg : Config) (idx : Nat)
    (call : Nat → String → String × Option String) :
    (transcribeSegmentsParallelUnit cfg idx call).1 =
      if (call 0 (parityFirst cfg idx)).2 = none ∧
          (call 0 (parityFirst cfg idx)).1 ≠ "" then [parityFirst cfg idx]
      else if parityFirst cfg idx = cfg.primaryModel then
        [parityFirst cfg idx, cfg.fallbackModel]
      else [parityFirst cfg idx] := by
  unfold transcribeSegmentsParallelUnit parityFirst
  by_cases hpar : idx % 2 = 0 <;>
    simp only [hpar, if_true, if_false, reduceIte] <;>
    split_ifs <;>
    rfl

theorem smart_calls_eq (cfg : Config) (idx : Nat)
    (call : Nat → String → String × Option String) :
    (transcribeSegmentSmart cfg idx true call).1 =
      if (call 0 (parityFirst cfg idx)).2 = none ∧
          (call 0 (parityFirst cfg idx)).1 ≠ "" then [parityFirst cfg idx]
      else [parityFirst cfg idx, parityOther cfg idx] := by
  unfold transcribeSegmentSmart parityFirst parityOther
  by_cases hpar : idx % 2 = 0 <;>
    simp only [hpar, if_true, if_false, reduceIte] <;>
    split_ifs <;>
    first
      | rfl
      | (rcases h2 : (call 1 cfg.fallbackModel).2 with _ | e <;> simp [h2])
      | (rcases h2 : (call 1 cfg.primaryModel).2 with _ | e <;> simp [h2])

/-- C1 (amended): every unit makes at most two Transcription Client calls
(at most one retry).  In part_000's `transcribeSegmentSmart` the second
(fallback) model attempt is invoked iff the first attempt returned an error
or empty text, regardless of which model was first.  In the
`transcribeSegmentsParallel` engine of main.go and main-rest.go the retry is
additionally gated on the first model being the configured primary model,
so a unit whose first model was the fallback model is never retried (see
`transcribeSegmentsParallelUnit_no_retry_on_fallback`). -/
theorem unit_retry_conditions (cfg : Config) (idx : Nat)
    (call : Nat → String → String × Option String) :
    (transcribeSegmentsParallelUnit cfg idx call).1.length ≤ 2 ∧
    ((transcribeSegmentsParallelUnit cfg idx call).1.length = 2 ↔
      ¬ ((call 0 (parityFirst cfg idx)).2 = none ∧
          (call 0 (parityFirst cfg idx)).1 ≠ "") ∧
        parityFirst cfg idx = cfg.primaryModel) ∧
    (transcribeSegmentSmart cfg idx true call).1.length ≤ 2 ∧
    ((transcribeSegmentSmart cfg idx true call).1.length = 2 ↔
      ¬ ((call 0 (parityFirst cfg idx)).2 = none ∧
          (call 0 (parityFirst cfg idx)).1 ≠ "")) := by
  have hm := unit_calls_eq cfg idx call
  have hs := smart_calls_eq cfg idx call
  by_cases h1 : (call 0 (parityFirst cfg idx)).2 = none ∧
      (call 0 (parityFirst cfg idx)).1 ≠ ""
  · simp [hm, hs, h1]
  · by_cases h2 : parityFirst cfg idx = cfg.primaryModel
    · simp only [hm, hs, if_neg h1, if_pos h2]
      rw [h2] at h1
      simp [h1, h2]
    · simp only [hm, hs, if_neg h1, if_neg h2]
      simp [h1, h2]

/-- C1 counterexample: with distinct models, for the odd-indexed unit 1 the
first attempt uses the fallback model and fails, yet the engine of main.go
makes no second Transcription Client call, contradicting the claim that a
failed first attempt is always followed by a fallback attempt. -/
theorem transcribeSegmentsParallelUnit_no_retry_on_fallback :
    (transcribeSegmentsParallelUnit ⟨"modelA", "modelB", 2⟩ 1
      fun _ _ => ("", some "boom")).1 = ["modelB"] ∧
    ((fun (_ : Nat) (_ : String) => ("", some "boom")) 0 "modelB").2 ≠ none := by
  refine ⟨rfl, by simp⟩

/-- C4: for every segment index, the first attempt's model is determined by
parity (even: primary model; odd: fallback model), and whenever a second
attempt occurs its model is the other member of the parity pair.  This holds
both for the engine of main.go / main-rest.go and for part_000's
`transcribeSegmentSmart` with load balancing. -/
theorem model_assignment_by_parity (cfg : Config) (idx : Nat)
    (call : Nat → String → String × Option String) :
    ((transcribeSegmentsParallelUnit cfg idx call).1 = [parityFirst cfg idx] ∨
      (transcribeSegmentsParallelUnit cfg idx call).1 =
        [parityFirst cfg idx, parityOther cfg idx]) ∧
    ((transcribeSegmentSmart cfg idx true call).1 = [parityFirst cfg idx] ∨
      (transcribeSegmentSmart cfg idx true call).1 =
        [parityFirst cfg idx, parityOther cfg idx]) := by
  have hm := unit_calls_eq cfg idx call
  have hs := smart_calls_eq cfg idx call
  constructor
  · rw [hm]
    by_cases h1 : (call 0 (parityFirst cfg idx)).2 = none ∧
        (call 0 (parityFirst cfg idx)).1 ≠ ""
    · simp [h1]
    · by_cases h2 : parityFirst cfg idx = cfg.primaryModel
      · rw [if_neg h1, if_pos h2]
        refine Or.inr ?_
        have hfb : cfg.fallbackModel = parityOther cfg idx := by
          unfold parityFirst at h2
          unfold parityOther
          by_cases hpar : idx % 2 = 0
          · simp [hpar]
          · simp only [hpar, if_false, reduceIte] at h2 ⊢
            exact h2
        rw [hfb]
      · rw [if_neg h1, if_neg h2]
        exact Or.inl rfl
  · rw [hs]
    by_cases h1 : (call 0 (parityFirst cfg idx)).2 = none ∧
        (call 0 (parityFirst cfg idx)).1 ≠ "" <;>
      simp [h1]

/-- Collection step of `transcribeSegmentsParallel` (src/voiceai-go/main.go,
lines 632..638): a result received from `resultChan` is stored into the
`results` map keyed by segment index exactly when it carries no error and
non-empty text. -/
def collectStep (m : Nat → Option String) (r : SegmentResult) : Nat → Option String :=
  if r.err = none ∧ r.text ≠ "" then Function.update m r.index (some r.text) else m

/-- The `results` map built by draining `resultChan` in an arbitrary
completion order `rs`. -/
def collectResults (rs : List SegmentResult) : Nat → Option String :=
  rs.foldl collectStep fun _ => none

/-- Reassembly of `transcribeSegmentsParallel` (src/voiceai-go/main.go,
lines 640..655): iterate indices `0..n-1` in increasing order, keep each
present text, join with a single space, and return `""` when nothing was
kept. -/
def combineTranscript (n : Nat) (rs : List SegmentResult) : String :=
  let transcriptParts := (List.range n).filterMap (collectResults rs)
  if transcriptParts.isEmpty then "" else String.intercalate " " transcriptParts

/-- The list of per-segment results in index order, for outcome assignment
`o` (text and error of each unit): the multiset of results the engine's
result channel delivers, in the canonical completion order. -/
def canonicalResults (n : Nat) (o : Nat → String × Option String) :
    List SegmentResult :=
  (List.range n).map fun i => ⟨i, (o i).1, (o i).2⟩

theorem mem_canonicalResults {n : Nat} {o : Nat → String × Option String}
    {r : SegmentResult} (hr : r ∈ canonicalResults n o) :
    r = ⟨r.index, (o r.index).1, (o r.index).2⟩ ∧ r.index < n := by
  unfold canonicalResults at hr
  rcases List.mem_map.mp hr with ⟨i, hi, hri⟩
  have : r.index = i := by rw [← hri]
  subst this
  exact ⟨hri.symm, List.mem_range.mp hi⟩

theorem collectStep_comm {x y : SegmentResult} (hxy : x.index ≠ y.index)
    (z : Nat → Option String) :
    collectStep (collectStep z x) y = collectStep (collectStep z y) x := by
  unfold collectStep
  split_ifs with hx hy hy
  · exact Function.update_comm hxy _ _ _
  · rfl
  · rfl
  · rfl

theorem collectResults_perm_eq {n : Nat} {o : Nat → String × Option String}
    {rs : List SegmentResult} (hperm : rs.Perm (canonicalResults n o)) :
    collectResults rs = collectResults (canonicalResults n o) := by
  unfold collectResults
  refine hperm.foldl_eq' ?_ _
  intro x hx y hy z
  by_cases hxy : x.index = y.index
  · have hx' := mem_canonicalResults (hperm.subset hx)
    have hy' := mem_canonicalResults (hperm.subset hy)
    have : x = y := by rw [hx'.1, hy'.1, hxy]
    rw [this]
  · exact collectStep_comm hxy z

theorem collectResults_canonical (n : Nat) (o : Nat → String × Option String)
    (i : Nat) :
    collectResults (canonicalResults n o) i =
      if i < n ∧ (o i).2 = none ∧ (o i).1 ≠ "" then some (o i).1 else none := by
  induction n with
  | zero => simp [collectResults, canonicalResults]
  | succ n ih =>
    have hsplit : canonicalResults (n + 1) o =
        canonicalResults n o ++ [⟨n, (o n).1, (o n).2⟩] := by
      unfold canonicalResults
      rw [List.range_succ, List.map_append, List.map_cons, List.map_nil]
    unfold collectResults at ih ⊢
    rw [hsplit, List.foldl_append, List.foldl_cons, List.foldl_nil]
    simp only [collectStep]
    by_cases hkeep : (o n).2 = none ∧ (o n).1 ≠ ""
    · rw [if_pos hkeep]
      by_cases hi : i = n
      · subst hi
        rw [Function.update_same]
        simp [hkeep]
      · rw [Function.update_noteq hi, ih]
        by_cases hlt : i < n
        · simp [hlt, Nat.lt_succ_of_lt hlt]
        · have hlt' : ¬ i < n + 1 := by omega
          simp [hlt, hlt']
    · rw [if_neg hkeep, ih]
      by_cases hi : i = n
      · subst hi
        simp [hkeep]
      · by_cases hlt : i < n
        · simp [hlt, Nat.lt_succ_of_lt hlt]
        · have hlt' : ¬ i < n + 1 := by omega
          simp [hlt, hlt']

/-- C2: for every number of segments and every assignment of per-segment
outcomes delivered in any completion order (any permutation of the
per-index results), the reassembled transcript iterates indices `0..n-1` in
increasing order, includes a segment's text exactly when its outcome has no
error and non-empty text, skips absent ones silently, and joins the kept
texts with a single space; consequently the result is independent of
completion order. -/
theorem transcribeSegmentsParallel_reassembly (n : Nat)
    (o : Nat → String × Option String) (rs : List SegmentResult)
    (hperm : rs.Perm (canonicalResults n o)) :
    combineTranscript n rs =
      String.intercalate " " ((List.range n).filterMap fun i =>
        if (o i).2 = none ∧ (o i).1 ≠ "" then some (o i).1 else none) ∧
    ∀ rs' : List SegmentResult, rs'.Perm (canonicalResults n o) →
      combineTranscript n rs' = combineTranscript n rs := by
  have main : ∀ l : List SegmentResult, l.Perm (canonicalResults n o) →
      combineTranscript n l =
        String.intercalate " " ((List.range n).filterMap fun i =>
          if (o i).2 = none ∧ (o i).1 ≠ "" then some (o i).1 else none) := by
    intro l hl
    unfold combineTranscript
    have hc : ∀ i ∈ List.range n, collectResults l i =
        (if (o i).2 = none ∧ (o i).1 ≠ "" then some (o i).1 else none) := by
      intro i hi
      rw [collectResults_perm_eq hl, collectResults_canonical]
      have hlt : i < n := List.mem_range.mp hi
      by_cases hk : (o i).2 = none ∧ (o i).1 ≠ "" <;> simp [hlt, hk]
    rw [List.filterMap_congr hc]
    by_cases hp : ((List.range n).filterMap fun i =>
        if (o i).2 = none ∧ (o i).1 ≠ "" then some (o i).1 else none).isEmpty
    · rw [if_pos hp, List.isEmpty_iff.mp hp]
      rfl
    · rw [if_neg hp]
  exact ⟨main rs hperm, fun rs' hperm' => (main rs' hperm').trans (main rs hperm).symm⟩

/-- Witness for `transcribeSegmentsParallel_reassembly`: two segments
completing in reversed order still reassemble in index order. -/
theorem transcribeSegmentsParallel_reassembly_witness :
    combineTranscript 2 [⟨1, "world", none⟩, ⟨0, "hello", none⟩] = "hello world" := by
  have h := transcribeSegmentsParallel_reassembly 2
    (fun i => (if i = 0 then "hello" else "world", none))
    [⟨1, "world", none⟩, ⟨0, "hello", none⟩] (by decide)
  rw [h.1]
  rfl

theorem collectResults_allfail {rs : List SegmentResult}
    (h : ∀ r ∈ rs, ¬ (r.err = none ∧ r.text ≠ "")) :
    collectResults rs = fun _ => none := by
  unfold collectResults
  induction rs with
  | nil => rfl
  | cons r rs ih =>
    rw [List.foldl_cons]
    have h0 : collectStep (fun _ => none) r = fun _ => none := by
      unfold collectStep
      rw [if_neg (h r (List.mem_cons_self r rs))]
    rw [h0]
    exact ih fun r' hr' => h r' (List.mem_cons_of_mem _ hr')

/-- What the controller of main.go does right after the pipeline returns
(src/voiceai-go/main.go, `startRecording`, lines 312..325): delete the temp
audio file, or persist the full WAV buffer to the fixed debug path. -/
inductive PostAction
  | cleanupTemp
  | saveDebug (wavData : List Nat)
deriving DecidableEq

/-- Outcome of the controller tail: whether the clipboard publish step was
invoked, and what happened to the captured audio. -/
structure PostOutcome where
  clipboardAttempted : Bool
  action : PostAction
deriving DecidableEq

/-- Embedding of the tail of the recording goroutine of `startRecording`
(src/voiceai-go/main.go, lines 312..325): a non-empty transcript is sent to
the clipboard; on clipboard success the temp audio is removed, on clipboard
failure the WAV buffer is saved for debugging; an empty transcript skips the
clipboard entirely and saves the WAV buffer for debugging. -/
def afterPipeline (wavData : List Nat) (transcript : String)
    (clipboardOk : Bool) : PostOutcome :=
  if transcript ≠ "" then
    if clipboardOk then ⟨true, .cleanupTemp⟩ else ⟨true, .saveDebug wavData⟩
  else ⟨false, .saveDebug wavData⟩

/-- C8: if zero units produce text (every outcome has an error or empty
text), the engine returns the empty transcript, and the pipeline then
persists the original full WAV buffer to the fixed debug path instead of
deleting it, with no text reaching the clipboard publish step. -/
theorem all_fail_reports_failure_and_saves (n : Nat) (rs : List SegmentResult)
    (wavData : List Nat) (clipboardOk : Bool)
    (h : ∀ r ∈ rs, r.err ≠ none ∨ r.text = "") :
    combineTranscript n rs = "" ∧
    afterPipeline wavData (combineTranscript n rs) clipboardOk =
      ⟨false, .saveDebug wavData⟩ := by
  have h' : ∀ r ∈ rs, ¬ (r.err = none ∧ r.text ≠ "") := by
    intro r hr
    rcases h r hr with h1 | h1
    · exact fun hc => h1 hc.1
    · exact fun hc => hc.2 h1
  have hempty : combineTranscript n rs = "" := by
    unfold combineTranscript
    rw [collectResults_allfail h']
    simp
  refine ⟨hempty, ?_⟩
  rw [hempty]
  rfl

/-- Witness for `all_fail_reports_failure_and_saves` at one failed segment. -/
theorem all_fail_reports_failure_and_saves_witness :
    combineTranscript 1 [⟨0, "", some "boom"⟩] = "" ∧
    afterPipeline [1, 2] (combineTranscript 1 [⟨0, "", some "boom"⟩]) true =
      ⟨false, .saveDebug [1, 2]⟩ :=
  all_fail_reports_failure_and_saves 1 [⟨0, "", some "boom"⟩] [1, 2] true
    (by decide)

/-- C10: the temp audio file is deleted exactly when the transcript is
non-empty and the clipboard copy succeeds; when a non-empty transcript fails
to publish, the full WAV buffer is persisted to the debug path exactly as on
total transcription failure. -/
theorem clipboard_failure_saves_audio (wavData : List Nat) (t : String)
    (clipboardOk : Bool) :
    ((afterPipeline wavData t clipboardOk).action = .cleanupTemp ↔
      (t ≠ "" ∧ clipboardOk = true)) ∧
    (t ≠ "" → clipboardOk = false →
      afterPipeline wavData t clipboardOk = ⟨true, .saveDebug wavData⟩ ∧
      (afterPipeline wavData t clipboardOk).action =
        (afterPipeline wavData "" clipboardOk).action) := by
  unfold afterPipeline
  by_cases ht : t = "" <;> cases clipboardOk <;> simp [ht]

/-- Witness for `clipboard_failure_saves_audio`: a failed clipboard copy of
a non-empty transcript saves the audio buffer. -/
theorem clipboard_failure_saves_audio_witness :
    afterPipeline [9] "hello" false = ⟨true, .saveDebug [9]⟩ ∧
    (afterPipeline [9] "hello" false).action = (afterPipeline [9] "" false).action :=
  (clipboard_failure_saves_audio [9] "hello" false).2 (by decide) rfl

/-- Audio size in MB as computed by `processAudioAdvanced`
(src/voiceai-go/main.go, line 473): `float64(len(wavData)) / (1024*1024)`.
The float64 division by the power of two is exact for all realistic buffer
lengths, so it is modelled over the rationals. -/
def audioSizeMB (wavData : List Nat) : ℚ :=
  (wavData.length : ℚ) / (1024 * 1024)

/-- The two processing strategies of the dispatcher. -/
inductive Strategy
  | direct
  | large
deriving DecidableEq

/-- Embedding of the strategy selection of `processAudioAdvanced`
(src/voiceai-go/main.go, lines 472..487; identical in main-rest.go and
part_000): direct processing iff `audioSizeMB <= cfg.MaxSegmentSizeMB`,
large-audio processing otherwise. -/
def processAudioAdvanced (cfg : Config) (wavData : List Nat) : Strategy :=
  if audioSizeMB wavData ≤ cfg.maxSegmentSizeMB then .direct else .large

/-- Embedding of the control skeleton of `processLargeAudio`
(src/voiceai-go/main.go, lines 489..534; main-rest.go lines 1118..1160):
failing to write the temp file aborts with `""`; the speed-up is attempted
only above `2 * cfg.maxSegmentSizeMB` and selects the sped-up file only on
success; failing to create the segments directory, or a segmenter that
yields zero segments, falls back to `transcribeAudio` on the ORIGINAL
in-memory `wavData`; otherwise the parallel engine runs on the segments.
`split` maps the processed file to its segment files, `direct` is
`transcribeAudio` on a byte buffer, `engine` is
`transcribeSegmentsParallel`. -/
def processLargeAudio (cfg : Config) (wavData : List Nat) (sizeMB : ℚ)
    (writeOk speedOk mkdirOk : Bool)
    (split : String → List String)
    (direct : List Nat → String)
    (engine : List String → String) : String :=
  if ¬ writeOk then ""
  else
    let tempFile := "audio_temp.wav"
    let processFile :=
      if sizeMB > cfg.maxSegmentSizeMB * 2 ∧ speedOk then tempFile ++ "_speed.wav"
      else tempFile
    if ¬ mkdirOk then direct wavData
    else
      let segments := split processFile
      if segments.isEmpty then direct wavData
      else engine segments

/-- C5 (amended): the dispatcher uses direct mode exactly when the buffer
size in MB is at most the direct-size threshold and large mode exactly when
it exceeds it, and the choice depends on the audio only through its byte
length.  In the main.go variant the direct mode is a single Transcription
Client invocation on the whole buffer against the primary model, with NO
fallback attempt (the main-rest.go variant does fall back; see
`transcribeAudioRest`); `direct_mode_single_call_counterexample` refutes
the claim's "with fallback" for the cited main.go code. -/
theorem strategy_threshold (cfg : Config) (wavData : List Nat) :
    (processAudioAdvanced cfg wavData = .direct ↔
      audioSizeMB wavData ≤ cfg.maxSegmentSizeMB) ∧
    (processAudioAdvanced cfg wavData = .large ↔
      ¬ audioSizeMB wavData ≤ cfg.maxSegmentSizeMB) ∧
    (∀ wavData₂ : List Nat, wavData.length = wavData₂.length →
      processAudioAdvanced cfg wavData = processAudioAdvanced cfg wavData₂) ∧
    (∀ call : String → String × Option String,
      (transcribeAudioGenai cfg call).1 = [cfg.primaryModel]) := by
  refine ⟨?_, ?_, ?_, ?_⟩
  · unfold processAudioAdvanced
    by_cases h : audioSizeMB wavData ≤ cfg.maxSegmentSizeMB <;> simp [h]
  · unfold processAudioAdvanced
    by_cases h : audioSizeMB wavData ≤ cfg.maxSegmentSizeMB <;> simp [h]
  · intro wavData₂ hlen
    unfold processAudioAdvanced audioSizeMB
    rw [hlen]
  · intro call
    unfold transcribeAudioGenai
    rcases h : (call cfg.primaryModel).2 with _ | e <;> simp [h]

/-- Witness for `strategy_threshold`: a 3-byte buffer is below a 2 MB
threshold, and a buffer of the same length dispatches identically. -/
theorem strategy_threshold_witness :
    processAudioAdvanced ⟨"modelA", "modelB", 2⟩ [1, 2, 3] = .direct ∧
    processAudioAdvanced ⟨"modelA", "modelB", 2⟩ [1, 2, 3] =
      processAudioAdvanced ⟨"modelA", "modelB", 2⟩ [4, 5, 6] :=
  ⟨(strategy_threshold ⟨"modelA", "modelB", 2⟩ [1, 2, 3]).1.mpr
      (by norm_num [audioSizeMB]),
    (strategy_threshold ⟨"modelA", "modelB", 2⟩ [1, 2, 3]).2.2.1 [4, 5, 6] rfl⟩

/-- C5 counterexample: the direct-mode client of main.go issues exactly one
Transcription Client call and no fallback attempt even when that single
call fails, contradicting the claim's "single Transcription Client
invocation, with fallback". -/
theorem direct_mode_single_call_counterexample :
    (transcribeAudioGenai ⟨"modelA", "modelB", 2⟩
      fun _ => ("", some "rate limited")).1 = ["modelA"] ∧
    ((fun (_ : String) => (("" : String), some "rate limited")) "modelA").2 ≠
      none := by
  exact ⟨rfl, by simp⟩

/-- C6: in large mode, if the Silence Segmenter yields zero segments the
pipeline falls back to direct transcription of the original whole-buffer
WAV bytes (not the sped-up file) whether or not the speed-up succeeded, so
segmentation failure never makes the pipeline fail outright; the
segments-directory failure path falls back the same way. -/
theorem segmentation_failure_falls_back (cfg : Config) (wavData : List Nat)
    (sizeMB : ℚ) (speedOk mkdirOk : Bool)
    (split : String → List String) (direct : List Nat → String)
    (engine : List String → String)
    (hsplit : ∀ f, split f = []) :
    processLargeAudio cfg wavData sizeMB true speedOk mkdirOk split direct
      engine = direct wavData := by
  unfold processLargeAudio
  cases mkdirOk
  · simp
  · simp [hsplit]

/-- Witness for `segmentation_failure_falls_back`: with a segmenter that
returns no segments, the large-mode pipeline returns the direct
transcription of the original buffer. -/
theorem segmentation_failure_falls_back_witness :
    processLargeAudio ⟨"modelA", "modelB", 2⟩ [1, 2] 5 true true true
      (fun _ => []) (fun _ => "direct-result") (fun _ => "engine-result") =
      (fun (_ : List Nat) => "direct-result") [1, 2] :=
  segmentation_failure_falls_back ⟨"modelA", "modelB", 2⟩ [1, 2] 5 true true
    (fun _ => []) (fun _ => "direct-result") (fun _ => "engine-result")
    (fun _ => rfl)

end VoiceAI
